import Mathlib

/-!
Verification development for the water-dataset figure script
(`figs/figs_making.py`).  The Python source is shallowly embedded:

* filenames are `List Char`, and Python's `str.replace` (global,
  left-to-right, non-overlapping) is `replaceL`;
* raster pixel values are `ℚ`; a raster is its dimensions plus a list of
  flattened bands; `np.percentile` (linear interpolation) is `percentile`;
* the statistics scan `calculate_dataset_stats` is a left fold over the
  label files, where each file carries the outcome its raster read would
  have (open failure, failure after opening, or a successful read);
* dictionaries (`defaultdict(int)`) are association lists updated by
  `dupd`, so key creation order and key presence are preserved, and
  `main`'s truthiness test `if sat_pixels:` is emptiness of that list.
-/

/-- Python `str.replace` helper: `replAux pat rep k l` skips `k` characters
of `l` and then scans for occurrences of `pat`, replacing each by `rep`. -/
def replAux (pat rep : List Char) : Nat → List Char → List Char
  | _, [] => []
  | k + 1, _ :: cs => replAux pat rep k cs
  | 0, c :: cs =>
    if List.isPrefixOf pat (c :: cs) then
      rep ++ replAux pat rep (pat.length - 1) cs
    else
      c :: replAux pat rep 0 cs

/-- Python `s.replace(pat, rep)`: replace every (leftmost, non-overlapping)
occurrence of `pat` in `l` by `rep`. -/
def replaceL (pat rep l : List Char) : List Char :=
  replAux pat rep 0 l

/-- The characters of the label-file suffix `_truth.tif`. -/
def truthSuffix : List Char := ['_', 't', 'r', 'u', 't', 'h', '.', 't', 'i', 'f']

/-- The characters of the raster extension `.tif`. -/
def tifSuffix : List Char := ['.', 't', 'i', 'f']

/-- Python `f.endswith(suffix)` on character lists. -/
def strEndsWith (suffix l : List Char) : Bool :=
  List.isPrefixOf suffix.reverse l.reverse

/-- Does `pat` occur as a contiguous substring of `l`?  (Python `pat in l`.) -/
def occursIn (pat : List Char) : List Char → Bool
  | [] => pat.isEmpty
  | c :: cs => List.isPrefixOf pat (c :: cs) || occursIn pat cs

/-- The prefix tests of `detect_satellite`, in the source's priority
order, applied to the already-stripped name. -/
def classifyPrefix (clean_name : List Char) : String :=
  if List.isPrefixOf ['I', '5'] clean_name then "Landsat-5"
  else if List.isPrefixOf ['I', '7'] clean_name then "Landsat-7"
  else if List.isPrefixOf ['I', '8'] clean_name then "Landsat-8"
  else if List.isPrefixOf ['I', '9'] clean_name then "Landsat-9"
  else if List.isPrefixOf ['S', '2'] clean_name then "Sentinel-2"
  else "Other"

/-- The source function `detect_satellite`: strip every occurrence of
`_truth.tif` (`fname.replace("_truth.tif", "")`), then test literal
two-character prefixes in priority order. -/
def detect_satellite (fname : List Char) : String :=
  classifyPrefix (replaceL truthSuffix [] fname)

/-- The source function `get_rgb_bands`: map a satellite label to the 1-based
(Red, Green, Blue) band indices, defaulting to `[1, 2, 3]`. -/
def get_rgb_bands (satellite_type : String) : List Nat :=
  if satellite_type = "Sentinel-2" then [4, 3, 2]
  else if satellite_type = "Landsat-8" then [3, 2, 1]
  else if satellite_type = "Landsat-9" then [5, 4, 3]
  else if satellite_type = "Landsat-5" then [3, 2, 1]
  else if satellite_type = "Landsat-7" then [3, 2, 1]
  else [1, 2, 3]

/-- The epsilon added to the stretch denominator in the source (`1e-6`). -/
def epsQ : ℚ := 1 / 1000000

/-- Scalar `np.clip(x, lo, hi)`: the lower bound is applied first, then the
upper bound. -/
def clipQ (lo hi x : ℚ) : ℚ := min (max x lo) hi

/-- The strictly positive pixels of an array (`img[img > 0]`). -/
def positives (xs : List ℚ) : List ℚ := xs.filter (fun x => 0 < x)

/-- Piecewise-linear interpolation of a sorted sample list at fractional
position `pos`, as `np.percentile` computes once `pos = q/100 * (n-1)`. -/
def interpAt (s : List ℚ) (pos : ℚ) : ℚ :=
  let i : Nat := Int.toNat ⌊pos⌋
  let lo := s.getD i 0
  let hi := s.getD (i + 1) lo
  lo + (pos - (i : ℚ)) * (hi - lo)

/-- Embeds `np.percentile(xs, q)` with the default linear interpolation. -/
def percentile (xs : List ℚ) (q : ℚ) : ℚ :=
  let s := List.insertionSort (fun a b => a ≤ b) xs
  if s.isEmpty then 0
  else interpAt s (q / 100 * ((s.length : ℚ) - 1))

/-- The stretch parameters `(p2, p98)` of `read_multiband_image`: the 2nd
and 98th percentiles of the strictly positive pixels, or the degenerate
fallback `(0, 1)` when no positive pixel exists. -/
def stretchParams (xs : List ℚ) : ℚ × ℚ :=
  let pos := positives xs
  if pos.isEmpty then (0, 1) else (percentile pos 2, percentile pos 98)

/-- One pixel through `np.clip(img, p2, p98)`, the affine rescale with the
`1e-6` denominator guard, and the final `np.clip(img, 0, 1)`. -/
def stretchVal (p2 p98 x : ℚ) : ℚ :=
  clipQ 0 1 ((clipQ p2 p98 x - p2) / (p98 - p2 + epsQ))

/-- The whole percentile stretch of `read_multiband_image` on a flattened
pixel array. -/
def stretchImage (xs : List ℚ) : List ℚ :=
  xs.map (stretchVal (stretchParams xs).1 (stretchParams xs).2)

/-- A raster file: its dimensions and its list of bands, each a flattened
pixel array (band `i` in 1-based rasterio indexing is `bands.getD (i-1)`). -/
structure Raster where
  width : Nat
  height : Nat
  bands : List (List ℚ)

/-- Embeds `src.read(idxs)` for a list of 1-based band indices: rasterio raises
(here: `none`) when an index is out of range. -/
def readBandsIdx (r : Raster) (idxs : List Nat) : Option (List (List ℚ)) :=
  if idxs.all (fun i => 1 ≤ i && i ≤ r.bands.length) then
    some (idxs.map (fun i => r.bands.getD (i - 1) []))
  else none

/-- Python `max` over a list of band indices. -/
def maxNat (l : List Nat) : Nat := l.foldr max 0

/-- The joint percentile stretch applied to a multi-band image: percentiles
come from all bands together, every band is rescaled by them. -/
def stretch3 (bs : List (List ℚ)) : List (List ℚ) :=
  bs.map (List.map (stretchVal (stretchParams bs.flatten).1 (stretchParams bs.flatten).2))

/-- The warning printed when the band count is below the requested index. -/
def warnMsg : String := "Warning: file has too few bands, reading bands 1-3"

/-- The message printed by the except-branch of `read_multiband_image`. -/
def errMsg : String := "Error reading file"

/-- The source function `read_multiband_image`: `none` stands for a failed
`rasterio.open`; on insufficient band count it warns and falls back to
bands `[1, 2, 3]`; any read failure is caught and yields `none`.  The
second component is the sequence of messages printed. -/
def read_multiband_image (src : Option Raster) (satellite_type : String) :
    Option (List (List ℚ)) × List String :=
  match src with
  | none => (none, [errMsg])
  | some r =>
    let rgb_indices := get_rgb_bands satellite_type
    if r.bands.length < maxNat rgb_indices then
      match readBandsIdx r [1, 2, 3] with
      | none => (none, [warnMsg, errMsg])
      | some bs => (some (stretch3 bs), [warnMsg])
    else
      match readBandsIdx r rgb_indices with
      | none => (none, [errMsg])
      | some bs => (some (stretch3 bs), [])

/-- What happens when the scan opens one label file: `rasterio.open` fails;
or the open succeeds (so `src.width`/`src.height` are available) but
`src.read(1)` fails; or the first band is read in full. -/
inductive ReadOutcome where
  | openFail : ReadOutcome
  | readFail : Nat → Nat → ReadOutcome
  | readOk : Nat → Nat → List ℚ → ReadOutcome
deriving DecidableEq

/-- A directory entry seen by the scan: its filename and the outcome its
raster read would have. -/
structure TruthFile where
  name : List Char
  outcome : ReadOutcome
deriving DecidableEq

/-- The four aggregate structures built by `calculate_dataset_stats`. -/
structure Stats where
  sat_pixel_counts : List (String × Nat)
  sat_scene_counts : List (String × Nat)
  waterTotal : Nat
  nonwaterTotal : Nat
  water_ratios : List ℚ
deriving DecidableEq

/-- Lookup in a `defaultdict(int)` association list. -/
def dget (d : List (String × Nat)) (k : String) : Nat :=
  match d with
  | [] => 0
  | (k', v) :: rest => if k' = k then v else dget rest k

/-- Embeds `d[k] += v` on a `defaultdict(int)` association list: update the
existing entry in place, or append a fresh key at the end. -/
def dupd (d : List (String × Nat)) (k : String) (v : Nat) : List (String × Nat) :=
  match d with
  | [] => [(k, v)]
  | (k', v') :: rest => if k' = k then (k', v' + v) :: rest else (k', v') :: dupd rest k v

/-- One iteration of the scan loop: the scene counter is incremented before
the `try` block, the pixel counter after a successful open, and the water
counters and the ratio only after a full read of band 1. -/
def scanStep (s : Stats) (f : TruthFile) : Stats :=
  let sat_type := detect_satellite f.name
  let s1 := { s with sat_scene_counts := dupd s.sat_scene_counts sat_type 1 }
  match f.outcome with
  | ReadOutcome.openFail => s1
  | ReadOutcome.readFail w h =>
      { s1 with sat_pixel_counts := dupd s1.sat_pixel_counts sat_type (w * h) }
  | ReadOutcome.readOk w h lbl =>
      let w_pix := (lbl.filter (fun x => x = 1)).length
      { s1 with
        sat_pixel_counts := dupd s1.sat_pixel_counts sat_type (w * h),
        waterTotal := s1.waterTotal + w_pix,
        nonwaterTotal := s1.nonwaterTotal + (lbl.length - w_pix),
        water_ratios := s1.water_ratios ++ [(w_pix : ℚ) / (lbl.length : ℚ)] }

/-- The empty aggregates the scan starts from. -/
def initStats : Stats := ⟨[], [], 0, 0, []⟩

/-- The scan loop over the already-filtered label files. -/
def scanStats (files : List TruthFile) : Stats := files.foldl scanStep initStats

/-- Embeds `[f for f in os.listdir(TRUTH_DIR) if f.endswith("_truth.tif")]`. -/
def truthFiles (listing : List TruthFile) : List TruthFile :=
  listing.filter (fun f => strEndsWith truthSuffix f.name)

/-- The only message `calculate_dataset_stats` ever prints. -/
def scanBanner : String := "Scanning dataset statistics..."

/-- The source function `calculate_dataset_stats`: filter the listing by suffix, fold
the scan over it; the second component is everything the function prints. -/
def calculate_dataset_stats (listing : List TruthFile) : Stats × List String :=
  (scanStats (truthFiles listing), [scanBanner])

/-- The renderers `main` invokes when `sat_pixels` is truthy. -/
def figureCalls : List String :=
  ["plot_combined_statistics", "plot_water_distribution", "plot_samples"]

/-- The rendering routines `main` runs: none when the `sat_pixels`
dictionary is empty (falsy), all three otherwise. -/
def main_actions (listing : List TruthFile) : List String :=
  if (calculate_dataset_stats listing).1.sat_pixel_counts = [] then []
  else figureCalls

/-- Sum of the values of a counting dictionary. -/
def sumVals (d : List (String × Nat)) : Nat := (d.map (fun p => p.2)).sum

/-- The pixel-count contribution of one scanned file: `width * height` is
added as soon as `rasterio.open` succeeded, even if `src.read(1)` then
failed. -/
def openedArea (f : TruthFile) : Nat :=
  match f.outcome with
  | ReadOutcome.openFail => 0
  | ReadOutcome.readFail w h => w * h
  | ReadOutcome.readOk w h _ => w * h

/-- The `width * height` of the fully read files, `0` for any failed file. -/
def okArea (f : TruthFile) : Nat :=
  match f.outcome with
  | ReadOutcome.readOk w h _ => w * h
  | _ => 0

/-- The number of pixels of the label band actually read, `0` on failure. -/
def labelSize (f : TruthFile) : Nat :=
  match f.outcome with
  | ReadOutcome.readOk _ _ lbl => lbl.length
  | _ => 0

/-- The water-pixel count contributed by one scanned file. -/
def waterPix (f : TruthFile) : Nat :=
  match f.outcome with
  | ReadOutcome.readOk _ _ lbl => (lbl.filter (fun x => x = 1)).length
  | _ => 0

/-- The ratio entries contributed by one scanned file. -/
def ratioAppend (f : TruthFile) : List ℚ :=
  match f.outcome with
  | ReadOutcome.readOk _ _ lbl =>
      [(((lbl.filter (fun x => x = 1)).length : ℚ) / (lbl.length : ℚ))]
  | _ => []

/-- Did the whole `try` body of the scan run without an exception? -/
def isReadOk (f : TruthFile) : Bool :=
  match f.outcome with
  | ReadOutcome.readOk _ _ _ => true
  | _ => false

/-- The label band of the end-to-end scenario: 30 water pixels among 100. -/
def c1band : List ℚ := List.replicate 30 (1 : ℚ) ++ List.replicate 70 0

/-- The single label file of the end-to-end scenario. -/
def c1file : TruthFile :=
  ⟨("I8_scene_1_truth.tif").toList, ReadOutcome.readOk 10 10 c1band⟩

/-- A label file whose raster opens (10 by 10) but whose band read fails. -/
def c10file : TruthFile := ⟨("I8_a_truth.tif").toList, ReadOutcome.readFail 10 10⟩

/-- A label file whose `rasterio.open` fails. -/
def c4file : TruthFile := ⟨("I8_b_truth.tif").toList, ReadOutcome.openFail⟩

/-- A directory entry that does not match the `_truth.tif` suffix. -/
def c6file : TruthFile := ⟨("scene.txt").toList, ReadOutcome.openFail⟩

/-- A two-band raster, fewer than the three bands of the fallback read. -/
def c7raster : Raster := ⟨1, 1, [[(1 : ℚ)], [2]]⟩

/-- A three-band 1 by 1 raster. -/
def c7raster3 : Raster := ⟨1, 1, [[(1 : ℚ)], [2], [3]]⟩

/-- The characters of `_truth`, the head part of the label suffix. -/
def truthPre : List Char := ['_', 't', 'r', 'u', 't', 'h']

lemma clipQ_unit_nonneg (v : ℚ) : 0 ≤ clipQ 0 1 v := by
  unfold clipQ
  exact le_min (le_max_right v 0) (by norm_num)

lemma clipQ_unit_le_one (v : ℚ) : clipQ 0 1 v ≤ 1 := min_le_right _ _

lemma stretchVal_nonneg (p2 p98 x : ℚ) : 0 ≤ stretchVal p2 p98 x :=
  clipQ_unit_nonneg _

lemma stretchVal_le_one (p2 p98 x : ℚ) : stretchVal p2 p98 x ≤ 1 :=
  clipQ_unit_le_one _

lemma sorted_getD_mono {s : List ℚ} (hs : s.Sorted (fun a b => a ≤ b))
    {a b : Nat} (hab : a ≤ b) (hb : b < s.length) :
    s.getD a 0 ≤ s.getD b 0 := by
  have ha : a < s.length := lt_of_le_of_lt hab hb
  rw [List.getD_eq_getElem _ _ ha, List.getD_eq_getElem _ _ hb]
  have h := hs.rel_get_of_le (a := ⟨a, ha⟩) (b := ⟨b, hb⟩) hab
  simpa using h

lemma interpAt_mono {s : List ℚ} (hs : s.Sorted (fun a b => a ≤ b))
    {p p' : ℚ} (hp0 : 0 ≤ p) (hpp : p ≤ p')
    (hp1 : p' ≤ (s.length : ℚ) - 1) :
    interpAt s p ≤ interpAt s p' := by
  have hfl0 : (0 : ℤ) ≤ ⌊p⌋ := Int.floor_nonneg.mpr hp0
  have hfl0' : (0 : ℤ) ≤ ⌊p'⌋ := Int.floor_nonneg.mpr (hp0.trans hpp)
  set a : Nat := Int.toNat ⌊p⌋ with hadef
  set a' : Nat := Int.toNat ⌊p'⌋ with hadef'
  have hcasta : (a : ℚ) = ((⌊p⌋ : ℤ) : ℚ) := by
    rw [hadef]; exact_mod_cast congrArg (fun z : ℤ => (z : ℚ)) (Int.toNat_of_nonneg hfl0)
  have hcasta' : (a' : ℚ) = ((⌊p'⌋ : ℤ) : ℚ) := by
    rw [hadef']; exact_mod_cast congrArg (fun z : ℤ => (z : ℚ)) (Int.toNat_of_nonneg hfl0')
  have hap : (a : ℚ) ≤ p := by rw [hcasta]; exact Int.floor_le p
  have hap' : (a' : ℚ) ≤ p' := by rw [hcasta']; exact Int.floor_le p'
  have hpa : p < (a : ℚ) + 1 := by rw [hcasta]; exact_mod_cast Int.lt_floor_add_one p
  have hpa' : p' < (a' : ℚ) + 1 := by rw [hcasta']; exact_mod_cast Int.lt_floor_add_one p'
  have haa : a ≤ a' := by
    rw [hadef, hadef']
    exact Int.toNat_le_toNat (Int.floor_mono hpp)
  have han' : (a' : ℚ) ≤ (s.length : ℚ) - 1 := le_trans hap' hp1
  have han : a' + 1 ≤ s.length := by
    have : ((a' : ℚ) + 1) ≤ (s.length : ℚ) := by linarith
    exact_mod_cast this
  have ha'lt : a' < s.length := han
  simp only [interpAt]
  rw [← hadef, ← hadef']
  rcases Nat.lt_or_ge a a' with hlt | hge
  · -- different floors: chain through s[a+1] ≤ s[a']
    have ha1 : a + 1 ≤ a' := hlt
    have ha1lt : a + 1 < s.length := lt_of_le_of_lt ha1 ha'lt
    have halt : a < s.length := lt_trans (Nat.lt_succ_self a) ha1lt
    have hilo : s.getD (a + 1) (s.getD a 0) = s.getD (a + 1) 0 := by
      rw [List.getD_eq_getElem _ _ ha1lt, List.getD_eq_getElem _ _ ha1lt]
    have hlohi : s.getD a 0 ≤ s.getD (a + 1) 0 :=
      sorted_getD_mono hs (Nat.le_succ a) ha1lt
    have hstep1 : s.getD a 0 + (p - (a : ℚ)) * (s.getD (a + 1) 0 - s.getD a 0)
        ≤ s.getD (a + 1) 0 := by
      have hfr : p - (a : ℚ) ≤ 1 := by linarith
      have hfr0 : 0 ≤ p - (a : ℚ) := by linarith
      nlinarith [sub_nonneg.mpr hlohi]
    have hstep2 : s.getD (a + 1) 0 ≤ s.getD a' 0 :=
      sorted_getD_mono hs ha1 ha'lt
    have hstep3 : s.getD a' 0 ≤
        s.getD a' 0 + (p' - (a' : ℚ)) * (s.getD (a' + 1) (s.getD a' 0) - s.getD a' 0) := by
      have hfr0' : 0 ≤ p' - (a' : ℚ) := by linarith
      have hlohi' : s.getD a' 0 ≤ s.getD (a' + 1) (s.getD a' 0) := by
        rcases Nat.lt_or_ge (a' + 1) s.length with hc | hc
        · rw [List.getD_eq_getElem _ _ hc]
          have := sorted_getD_mono hs (Nat.le_succ a') hc
          rwa [List.getD_eq_getElem _ _ hc] at this
        · rw [List.getD_eq_default _ _ hc]
      nlinarith [sub_nonneg.mpr hlohi']
    calc s.getD a 0 + (p - (a : ℚ)) * (s.getD (a + 1) (s.getD a 0) - s.getD a 0)
        = s.getD a 0 + (p - (a : ℚ)) * (s.getD (a + 1) 0 - s.getD a 0) := by rw [hilo]
      _ ≤ s.getD (a + 1) 0 := hstep1
      _ ≤ s.getD a' 0 := hstep2
      _ ≤ _ := hstep3
  · -- same floor
    have heq : a = a' := le_antisymm haa hge
    rw [← heq] at hap' hpa' ⊢
    have hlohi : s.getD a 0 ≤ s.getD (a + 1) (s.getD a 0) := by
      rcases Nat.lt_or_ge (a + 1) s.length with hc | hc
      · rw [List.getD_eq_getElem _ _ hc]
        have := sorted_getD_mono hs (Nat.le_succ a) hc
        rwa [List.getD_eq_getElem _ _ hc] at this
      · rw [List.getD_eq_default _ _ hc]
    nlinarith [sub_nonneg.mpr hlohi]

lemma percentile_mono {xs : List ℚ} (hne : xs ≠ []) {q q' : ℚ}
    (h0 : 0 ≤ q) (hqq : q ≤ q') (h100 : q' ≤ 100) :
    percentile xs q ≤ percentile xs q' := by
  simp only [percentile]
  set s := List.insertionSort (fun a b => a ≤ b) xs with hsdef
  have hlen : s.length = xs.length := (List.perm_insertionSort _ xs).length_eq
  have hpos : 0 < s.length := by
    rw [hlen]
    exact List.length_pos.mpr hne
  have hemp : s.isEmpty = false := by
    cases hc : s with
    | nil => rw [hc] at hpos; simp at hpos
    | cons x t => simp
  rw [hemp]
  simp only [Bool.false_eq_true, if_false]
  have hone : (1 : ℚ) ≤ (s.length : ℚ) := by exact_mod_cast hpos
  have hnn : (0 : ℚ) ≤ (s.length : ℚ) - 1 := by linarith
  apply interpAt_mono (List.sorted_insertionSort _ xs)
  · exact mul_nonneg (by positivity) hnn
  · apply mul_le_mul_of_nonneg_right _ hnn
    linarith
  · have hq1 : q' / 100 ≤ 1 := by linarith [div_le_one_of_le₀ h100 (by norm_num : (0:ℚ) ≤ 100)]
    calc q' / 100 * ((s.length : ℚ) - 1) ≤ 1 * ((s.length : ℚ) - 1) :=
          mul_le_mul_of_nonneg_right hq1 hnn
      _ = (s.length : ℚ) - 1 := one_mul _

lemma dget_dupd (d : List (String × Nat)) (k k' : String) (v : Nat) :
    dget (dupd d k v) k' = dget d k' + (if k = k' then v else 0) := by
  induction d with
  | nil =>
    by_cases h : k = k' <;> simp [dupd, dget, h]
  | cons p rest ih =>
    rcases p with ⟨k0, v0⟩
    by_cases h0 : k0 = k
    · subst h0
      by_cases h1 : k0 = k' <;> simp [dupd, dget, h1]
    · by_cases h1 : k0 = k'
      · have h2 : ¬(k = k') := fun he => h0 (h1.trans he.symm)
        have h3 : ¬(k' = k) := fun he => h2 he.symm
        simp [dupd, dget, h0, h1, h2, h3]
      · simp [dupd, dget, h0, h1, ih]

lemma dupd_sumVals (d : List (String × Nat)) (k : String) (v : Nat) :
    sumVals (dupd d k v) = sumVals d + v := by
  induction d with
  | nil => simp [dupd, sumVals]
  | cons p rest ih =>
    rcases p with ⟨k0, v0⟩
    by_cases h0 : k0 = k
    · simp [dupd, h0, sumVals]
      omega
    · simp [dupd, h0, sumVals] at ih ⊢
      omega

lemma dupd_ne_nil (d : List (String × Nat)) (k : String) (v : Nat) :
    dupd d k v ≠ [] := by
  cases d with
  | nil => simp [dupd]
  | cons p rest =>
    rcases p with ⟨k0, v0⟩
    by_cases h0 : k0 = k <;> simp [dupd, h0]

lemma scanStep_scenes (s : Stats) (f : TruthFile) :
    (scanStep s f).sat_scene_counts
      = dupd s.sat_scene_counts (detect_satellite f.name) 1 := by
  rcases f with ⟨n, o⟩
  cases o <;> rfl

lemma scanStep_waterTotal (s : Stats) (f : TruthFile) :
    (scanStep s f).waterTotal = s.waterTotal + waterPix f := by
  rcases f with ⟨n, o⟩
  cases o <;> simp [scanStep, waterPix]

lemma scanStep_nonwaterTotal (s : Stats) (f : TruthFile) :
    (scanStep s f).nonwaterTotal = s.nonwaterTotal + (labelSize f - waterPix f) := by
  rcases f with ⟨n, o⟩
  cases o <;> simp [scanStep, waterPix, labelSize]

lemma scanStep_ratios (s : Stats) (f : TruthFile) :
    (scanStep s f).water_ratios = s.water_ratios ++ ratioAppend f := by
  rcases f with ⟨n, o⟩
  cases o <;> simp [scanStep, ratioAppend]

lemma scanStep_pixels_dget (s : Stats) (f : TruthFile) (k : String) :
    dget (scanStep s f).sat_pixel_counts k
      = dget s.sat_pixel_counts k
        + (if detect_satellite f.name = k then openedArea f else 0) := by
  rcases f with ⟨n, o⟩
  cases o <;> simp [scanStep, openedArea, dget_dupd]

lemma scanStep_pixels_sum (s : Stats) (f : TruthFile) :
    sumVals (scanStep s f).sat_pixel_counts
      = sumVals s.sat_pixel_counts + openedArea f := by
  rcases f with ⟨n, o⟩
  cases o <;> simp [scanStep, openedArea, dupd_sumVals]

lemma scanStep_pixels_nil (s : Stats) (f : TruthFile) :
    ((scanStep s f).sat_pixel_counts = [])
      ↔ (s.sat_pixel_counts = [] ∧ f.outcome = ReadOutcome.openFail) := by
  rcases f with ⟨n, o⟩
  cases o <;> simp [scanStep, dupd_ne_nil]

lemma waterPix_le_labelSize (f : TruthFile) : waterPix f ≤ labelSize f := by
  rcases f with ⟨n, o⟩
  cases o with
  | readOk w h lbl => exact List.length_filter_le _ _
  | openFail => exact le_refl 0
  | readFail w h => exact le_refl 0

lemma scan_scene_sum (fs : List TruthFile) :
    ∀ s : Stats,
      sumVals (fs.foldl scanStep s).sat_scene_counts
        = sumVals s.sat_scene_counts + fs.length := by
  induction fs with
  | nil => intro s; simp
  | cons f fs ih =>
    intro s
    rw [List.foldl_cons, ih, scanStep_scenes, dupd_sumVals, List.length_cons]
    omega

lemma scan_pixel_sum (fs : List TruthFile) :
    ∀ s : Stats,
      sumVals (fs.foldl scanStep s).sat_pixel_counts
        = sumVals s.sat_pixel_counts + (fs.map openedArea).sum := by
  induction fs with
  | nil => intro s; simp
  | cons f fs ih =>
    intro s
    rw [List.foldl_cons, ih, scanStep_pixels_sum, List.map_cons, List.sum_cons]
    omega

lemma scan_water_sum (fs : List TruthFile) :
    ∀ s : Stats,
      (fs.foldl scanStep s).waterTotal + (fs.foldl scanStep s).nonwaterTotal
        = s.waterTotal + s.nonwaterTotal + (fs.map labelSize).sum := by
  induction fs with
  | nil => intro s; simp
  | cons f fs ih =>
    intro s
    rw [List.foldl_cons, ih, scanStep_waterTotal, scanStep_nonwaterTotal,
      List.map_cons, List.sum_cons]
    have h := waterPix_le_labelSize f
    omega

lemma scan_pixels_nil (fs : List TruthFile) :
    ∀ s : Stats,
      ((fs.foldl scanStep s).sat_pixel_counts = [])
        ↔ (s.sat_pixel_counts = [] ∧ ∀ f ∈ fs, f.outcome = ReadOutcome.openFail) := by
  induction fs with
  | nil => intro s; simp
  | cons f fs ih =>
    intro s
    rw [List.foldl_cons, ih, scanStep_pixels_nil]
    constructor
    · rintro ⟨⟨h1, h2⟩, h3⟩
      exact ⟨h1, by
        intro g hg
        rcases List.mem_cons.mp hg with hg | hg
        · exact hg ▸ h2
        · exact h3 g hg⟩
    · rintro ⟨h1, h2⟩
      exact ⟨⟨h1, h2 f (List.mem_cons_self f fs)⟩,
        fun g hg => h2 g (List.mem_cons_of_mem f hg)⟩

lemma scan_congr (fs : List TruthFile) (dscn dpix : String → Nat) :
    ∀ s s' : Stats,
      s.waterTotal = s'.waterTotal →
      s.nonwaterTotal = s'.nonwaterTotal →
      s.water_ratios = s'.water_ratios →
      (∀ k, dget s.sat_scene_counts k = dget s'.sat_scene_counts k + dscn k) →
      (∀ k, dget s.sat_pixel_counts k = dget s'.sat_pixel_counts k + dpix k) →
      (fs.foldl scanStep s).waterTotal = (fs.foldl scanStep s').waterTotal
      ∧ (fs.foldl scanStep s).nonwaterTotal = (fs.foldl scanStep s').nonwaterTotal
      ∧ (fs.foldl scanStep s).water_ratios = (fs.foldl scanStep s').water_ratios
      ∧ (∀ k, dget (fs.foldl scanStep s).sat_scene_counts k
          = dget (fs.foldl scanStep s').sat_scene_counts k + dscn k)
      ∧ (∀ k, dget (fs.foldl scanStep s).sat_pixel_counts k
          = dget (fs.foldl scanStep s').sat_pixel_counts k + dpix k) := by
  induction fs with
  | nil =>
    intro s s' h1 h2 h3 h4 h5
    exact ⟨h1, h2, h3, h4, h5⟩
  | cons f fs ih =>
    intro s s' h1 h2 h3 h4 h5
    rw [List.foldl_cons, List.foldl_cons]
    apply ih
    · rw [scanStep_waterTotal, scanStep_waterTotal, h1]
    · rw [scanStep_nonwaterTotal, scanStep_nonwaterTotal, h2]
    · rw [scanStep_ratios, scanStep_ratios, h3]
    · intro k
      rw [scanStep_scenes, scanStep_scenes, dget_dupd, dget_dupd, h4 k]
      omega
    · intro k
      rw [scanStep_pixels_dget, scanStep_pixels_dget, h5 k]
      omega

lemma waterPix_of_fail {f : TruthFile} (hfail : isReadOk f = false) :
    waterPix f = 0 := by
  rcases f with ⟨n, o⟩
  cases o with
  | openFail => rfl
  | readFail w h => rfl
  | readOk w h lbl => simp [isReadOk] at hfail

lemma labelSize_of_fail {f : TruthFile} (hfail : isReadOk f = false) :
    labelSize f = 0 := by
  rcases f with ⟨n, o⟩
  cases o with
  | openFail => rfl
  | readFail w h => rfl
  | readOk w h lbl => simp [isReadOk] at hfail

lemma ratioAppend_of_fail {f : TruthFile} (hfail : isReadOk f = false) :
    ratioAppend f = [] := by
  rcases f with ⟨n, o⟩
  cases o with
  | openFail => rfl
  | readFail w h => rfl
  | readOk w h lbl => simp [isReadOk] at hfail

/-- C1: scanning a label directory holding exactly `I8_scene_1_truth.tif`,
a 10 by 10 raster with 30 pixels equal to 1, classifies the file as
Landsat-8 and yields scene count 1 and pixel count 100 for Landsat-8,
global water count 30, global non-water count 70, and ratio list [0.30]. -/
theorem c1_end_to_end_scan :
    detect_satellite (("I8_scene_1_truth.tif").toList) = "Landsat-8"
    ∧ dget (calculate_dataset_stats [c1file]).1.sat_scene_counts "Landsat-8" = 1
    ∧ dget (calculate_dataset_stats [c1file]).1.sat_pixel_counts "Landsat-8" = 100
    ∧ (calculate_dataset_stats [c1file]).1.waterTotal = 30
    ∧ (calculate_dataset_stats [c1file]).1.nonwaterTotal = 70
    ∧ (calculate_dataset_stats [c1file]).1.water_ratios = [3 / 10] := by
  refine ⟨by decide, by decide, by decide, by decide, by decide, ?_⟩
  have h : (calculate_dataset_stats [c1file]).1.water_ratios
      = [((c1band.filter (fun x => x = 1)).length : ℚ) / (c1band.length : ℚ)] := rfl
  rw [h]
  have h1 : (c1band.filter (fun x => x = 1)).length = 30 := by decide
  have h2 : c1band.length = 100 := by decide
  rw [h1, h2]
  norm_num

/-- C2: after any run of the scan, the per-satellite scene counts sum to
the number of files matching the `_truth.tif` suffix, and the global Water
plus Non-water counts equal the summed `width * height` over the fully
read scenes (whose first band indeed has `width * height` pixels). -/
theorem c2_aggregate_invariant (listing : List TruthFile)
    (hsize : ∀ f ∈ truthFiles listing, ∀ w h lbl,
      f.outcome = ReadOutcome.readOk w h lbl → lbl.length = w * h) :
    sumVals (scanStats (truthFiles listing)).sat_scene_counts
      = (truthFiles listing).length
    ∧ (scanStats (truthFiles listing)).waterTotal
        + (scanStats (truthFiles listing)).nonwaterTotal
      = ((truthFiles listing).map okArea).sum := by
  constructor
  · simp only [scanStats]
    rw [scan_scene_sum]
    simp [initStats, sumVals]
  · simp only [scanStats]
    rw [scan_water_sum]
    have hmap : (truthFiles listing).map labelSize = (truthFiles listing).map okArea := by
      apply List.map_congr_left
      intro f hf
      rcases f with ⟨n, o⟩
      cases o with
      | openFail => rfl
      | readFail w h => rfl
      | readOk w h lbl =>
        have hw := hsize ⟨n, ReadOutcome.readOk w h lbl⟩ hf w h lbl rfl
        simp [labelSize, okArea, hw]
    simp [initStats, hmap]

/-- C2 witness: the invariant evaluated on the end-to-end scenario file. -/
theorem c2_aggregate_invariant_witness :
    sumVals (scanStats (truthFiles [c1file])).sat_scene_counts
      = (truthFiles [c1file]).length
    ∧ (scanStats (truthFiles [c1file])).waterTotal
        + (scanStats (truthFiles [c1file])).nonwaterTotal
      = ((truthFiles [c1file]).map okArea).sum := by
  apply c2_aggregate_invariant
  intro f hf w h lbl heq
  have ht : truthFiles [c1file] = [c1file] := by decide
  rw [ht] at hf
  have hfc : f = c1file := by simpa using hf
  subst hfc
  have heq2 : ReadOutcome.readOk 10 10 c1band = ReadOutcome.readOk w h lbl := heq
  injection heq2 with hw hh hl
  subst hw
  subst hh
  subst hl
  decide

/-- C10 counterexample: a file that opens but whose `src.read(1)` fails
contributes its 100 pixels to the per-satellite pixel totals while the
water counters stay at 0, so the claimed equality fails and the pixel
total is not accumulated only for files whose read succeeds. -/
theorem c10_counterexample :
    sumVals (scanStats (truthFiles [c10file])).sat_pixel_counts = 100
    ∧ (scanStats (truthFiles [c10file])).waterTotal
        + (scanStats (truthFiles [c10file])).nonwaterTotal = 0 := by
  constructor <;> decide

/-- C10 amended: the pixel total is accumulated for every file whose open
succeeds; when no file fails between open and read (and every read band
has `width * height` pixels), the summed per-satellite pixel counts equal
Water plus Non-water. -/
theorem c10_pixel_water_amended (listing : List TruthFile)
    (hnoRF : ∀ f ∈ truthFiles listing, ∀ w h,
      f.outcome ≠ ReadOutcome.readFail w h)
    (hsize : ∀ f ∈ truthFiles listing, ∀ w h lbl,
      f.outcome = ReadOutcome.readOk w h lbl → lbl.length = w * h) :
    sumVals (scanStats (truthFiles listing)).sat_pixel_counts
      = (scanStats (truthFiles listing)).waterTotal
        + (scanStats (truthFiles listing)).nonwaterTotal := by
  simp only [scanStats]
  rw [scan_pixel_sum, scan_water_sum]
  have hmap : (truthFiles listing).map openedArea = (truthFiles listing).map labelSize := by
    apply List.map_congr_left
    intro f hf
    rcases f with ⟨n, o⟩
    cases o with
    | openFail => rfl
    | readFail w h =>
      exact absurd rfl (hnoRF ⟨n, ReadOutcome.readFail w h⟩ hf w h)
    | readOk w h lbl =>
      have hw := hsize ⟨n, ReadOutcome.readOk w h lbl⟩ hf w h lbl rfl
      simp [openedArea, labelSize, hw]
  simp [initStats, hmap, sumVals]

/-- C10 amended witness: evaluated on the end-to-end scenario file. -/
theorem c10_pixel_water_amended_witness :
    sumVals (scanStats (truthFiles [c1file])).sat_pixel_counts
      = (scanStats (truthFiles [c1file])).waterTotal
        + (scanStats (truthFiles [c1file])).nonwaterTotal := by
  apply c10_pixel_water_amended
  · intro f hf w h heq
    have ht : truthFiles [c1file] = [c1file] := by decide
    rw [ht] at hf
    have hfc : f = c1file := by simpa using hf
    subst hfc
    have heq2 : ReadOutcome.readOk 10 10 c1band = ReadOutcome.readFail w h := heq
    cases heq2
  · intro f hf w h lbl heq
    have ht : truthFiles [c1file] = [c1file] := by decide
    rw [ht] at hf
    have hfc : f = c1file := by simpa using hf
    subst hfc
    have heq2 : ReadOutcome.readOk 10 10 c1band = ReadOutcome.readOk w h lbl := heq
    injection heq2 with hw hh hl
    subst hw
    subst hh
    subst hl
    decide

/-- C4 counterexample: scanning a single failing file prints only the
constant banner (no message for the file, since the handler is a bare
`except: pass`), and the Landsat-8 scene count is still incremented, so an
aggregate statistic other than the skip itself is affected. -/
theorem c4_counterexample :
    (calculate_dataset_stats [c4file]).2 = [scanBanner]
    ∧ dget (calculate_dataset_stats [c4file]).1.sat_scene_counts "Landsat-8" = 1 := by
  constructor
  · rfl
  · decide

/-- C4 amended: a per-file read failure is caught silently (the scan prints
only its banner), the file contributes no water counts and no ratio and
the scan continues over the remaining files unchanged, but the scene count
of the file's satellite is still incremented, and its `width * height` is
still added to the pixel count when the failure happened after opening. -/
theorem c4_skip_amended (fs1 fs2 : List TruthFile) (f : TruthFile)
    (hfail : isReadOk f = false) :
    (calculate_dataset_stats (fs1 ++ f :: fs2)).2 = [scanBanner]
    ∧ (scanStats (fs1 ++ f :: fs2)).waterTotal = (scanStats (fs1 ++ fs2)).waterTotal
    ∧ (scanStats (fs1 ++ f :: fs2)).nonwaterTotal = (scanStats (fs1 ++ fs2)).nonwaterTotal
    ∧ (scanStats (fs1 ++ f :: fs2)).water_ratios = (scanStats (fs1 ++ fs2)).water_ratios
    ∧ (∀ k, dget (scanStats (fs1 ++ f :: fs2)).sat_scene_counts k
        = dget (scanStats (fs1 ++ fs2)).sat_scene_counts k
          + (if detect_satellite f.name = k then 1 else 0))
    ∧ (∀ k, dget (scanStats (fs1 ++ f :: fs2)).sat_pixel_counts k
        = dget (scanStats (fs1 ++ fs2)).sat_pixel_counts k
          + (if detect_satellite f.name = k then openedArea f else 0)) := by
  have hw : waterPix f = 0 := waterPix_of_fail hfail
  have hl : labelSize f = 0 := labelSize_of_fail hfail
  have hr : ratioAppend f = [] := ratioAppend_of_fail hfail
  refine ⟨rfl, ?_⟩
  have key := scan_congr fs2
      (fun k => if detect_satellite f.name = k then 1 else 0)
      (fun k => if detect_satellite f.name = k then openedArea f else 0)
      (scanStep (fs1.foldl scanStep initStats) f)
      (fs1.foldl scanStep initStats)
      (by simp [scanStep_waterTotal, hw])
      (by simp [scanStep_nonwaterTotal, hl, hw])
      (by simp [scanStep_ratios, hr])
      (fun k => by rw [scanStep_scenes, dget_dupd])
      (fun k => by rw [scanStep_pixels_dget])
  simp only [scanStats, List.foldl_append, List.foldl_cons]
  exact key

/-- C4 amended witness: the single failing file, with the scene-count
effect read off at the key Landsat-8. -/
theorem c4_skip_amended_witness :
    isReadOk c4file = false
    ∧ (calculate_dataset_stats [c4file]).2 = [scanBanner]
    ∧ (scanStats [c4file]).waterTotal = (scanStats []).waterTotal
    ∧ dget (scanStats [c4file]).sat_scene_counts "Landsat-8"
        = dget (scanStats []).sat_scene_counts "Landsat-8"
          + (if detect_satellite c4file.name = "Landsat-8" then 1 else 0) := by
  have h := c4_skip_amended [] [] c4file (by decide)
  exact ⟨by decide, h.1, h.2.1, h.2.2.2.2.1 "Landsat-8"⟩

/-- C5 counterexample: a directory with one matching label file whose open
fails leaves `sat_pixel_counts` empty, so `main` renders no figure even
though a matching label file exists. -/
theorem c5_counterexample :
    (truthFiles [c4file]).length = 1 ∧ main_actions [c4file] = [] := by
  constructor <;> decide

/-- C5 amended: figure generation runs exactly when at least one matching
label file opens successfully; a run whose matching files all fail to open
generates no figures. -/
theorem c5_renders_iff_amended (listing : List TruthFile) :
    main_actions listing ≠ []
      ↔ ∃ f ∈ truthFiles listing, f.outcome ≠ ReadOutcome.openFail := by
  have hiff : ((calculate_dataset_stats listing).1.sat_pixel_counts = [])
      ↔ ∀ f ∈ truthFiles listing, f.outcome = ReadOutcome.openFail := by
    have h := scan_pixels_nil (truthFiles listing) initStats
    simpa [calculate_dataset_stats, scanStats, initStats] using h
  constructor
  · intro hne
    by_contra hno
    push_neg at hno
    apply hne
    unfold main_actions
    rw [if_pos (hiff.mpr hno)]
  · rintro ⟨f, hf, hnf⟩ hmain
    unfold main_actions at hmain
    by_cases hp : (calculate_dataset_stats listing).1.sat_pixel_counts = []
    · exact hnf (hiff.mp hp f hf)
    · rw [if_neg hp] at hmain
      exact absurd hmain (by decide)

/-- C6: when no file matches the `_truth.tif` suffix the scan returns the
empty aggregates and `main` runs no rendering routine. -/
theorem c6_empty_scan (listing : List TruthFile)
    (hnone : ∀ f ∈ listing, strEndsWith truthSuffix f.name = false) :
    (calculate_dataset_stats listing).1 = initStats
    ∧ main_actions listing = [] := by
  have ht : truthFiles listing = [] := by
    apply List.filter_eq_nil_iff.mpr
    intro f hf
    simp [hnone f hf]
  constructor
  · simp [calculate_dataset_stats, scanStats, ht]
  · simp [main_actions, calculate_dataset_stats, scanStats, ht, initStats]

/-- C6 witness: one non-matching directory entry. -/
theorem c6_empty_scan_witness :
    (∀ f ∈ [c6file], strEndsWith truthSuffix f.name = false)
    ∧ (calculate_dataset_stats [c6file]).1 = initStats
    ∧ main_actions [c6file] = [] :=
  ⟨by decide, c6_empty_scan [c6file] (by decide)⟩

lemma stretchParams_of_pos {xs : List ℚ} (hpos : positives xs ≠ []) :
    stretchParams xs
      = (percentile (positives xs) 2, percentile (positives xs) 98) := by
  have h : (positives xs).isEmpty = false := by
    cases hc : positives xs with
    | nil => exact absurd hc hpos
    | cons a t => simp
  simp [stretchParams, h]

lemma stretchVal_at_lo {p2 p98 : ℚ} (h : p2 ≤ p98) :
    stretchVal p2 p98 p2 = 0 := by
  unfold stretchVal clipQ
  rw [max_self, min_eq_left h]
  simp

lemma stretchVal_at_hi {p2 p98 : ℚ} (h : p2 < p98) :
    1 - epsQ / (p98 - p2) ≤ stretchVal p2 p98 p98
    ∧ stretchVal p2 p98 p98 < 1 := by
  have hd : 0 < p98 - p2 := sub_pos.mpr h
  have he : 0 < epsQ := by norm_num [epsQ]
  have hden : 0 < p98 - p2 + epsQ := by linarith
  have hclip : clipQ p2 p98 p98 = p98 := by
    unfold clipQ
    rw [max_eq_left h.le, min_self]
  have h0 : 0 ≤ (p98 - p2) / (p98 - p2 + epsQ) := by positivity
  have h1 : (p98 - p2) / (p98 - p2 + epsQ) < 1 := by
    rw [div_lt_one hden]
    linarith
  have hval : stretchVal p2 p98 p98 = (p98 - p2) / (p98 - p2 + epsQ) := by
    unfold stretchVal
    rw [hclip]
    unfold clipQ
    rw [max_eq_left h0, min_eq_left h1.le]
  constructor
  · rw [hval]
    have hkey : (p98 - p2) / (p98 - p2 + epsQ) = 1 - epsQ / (p98 - p2 + epsQ) := by
      field_simp
    have hmono : epsQ / (p98 - p2 + epsQ) ≤ epsQ / (p98 - p2) := by
      rw [div_le_div_iff₀ hden hd]
      nlinarith
    rw [hkey]
    linarith
  · rw [hval]
    exact h1

/-- C3 counterexample: for the array `[5]` (a single positive pixel) the
98th percentile of the positive pixels is 5, yet the stretcher maps the
input value 5 to 0 -- at distance 1 from the claimed approximate value 1. -/
theorem c3_counterexample :
    stretchParams [(5 : ℚ)] = (5, 5)
    ∧ stretchImage [(5 : ℚ)] = [0]
    ∧ |stretchVal 5 5 5 - 1| = 1 := by
  have hpos : positives [(5 : ℚ)] = [5] := by
    norm_num [positives]
  have hp2 : percentile [(5 : ℚ)] 2 = 5 := by
    norm_num [percentile, interpAt]
  have hp98 : percentile [(5 : ℚ)] 98 = 5 := by
    norm_num [percentile, interpAt]
  have hparams : stretchParams [(5 : ℚ)] = (5, 5) := by
    rw [stretchParams_of_pos (by rw [hpos]; exact List.cons_ne_nil 5 []), hpos, hp2, hp98]
  have hv : stretchVal 5 5 5 = 0 := stretchVal_at_lo (le_refl 5)
  refine ⟨hparams, ?_, ?_⟩
  · rw [stretchImage, hparams]
    simp [hv]
  · rw [hv]
    norm_num

/-- C3 amended: for every array with at least one positive pixel the
stretched output lies entirely within [0,1] and the 2nd-percentile value
maps exactly to 0; the 98th-percentile value maps approximately to 1 --
within `1e-6 / (p98 - p2)` of 1 -- only when the two percentiles are
distinct (when `p2 = p98`, as in the counterexample, it maps to 0). -/
theorem c3_stretch_amended (xs : List ℚ) (hpos : positives xs ≠ []) :
    (∀ y ∈ stretchImage xs, 0 ≤ y ∧ y ≤ 1)
    ∧ stretchVal (stretchParams xs).1 (stretchParams xs).2 (stretchParams xs).1 = 0
    ∧ ((stretchParams xs).1 < (stretchParams xs).2 →
        1 - epsQ / ((stretchParams xs).2 - (stretchParams xs).1)
            ≤ stretchVal (stretchParams xs).1 (stretchParams xs).2 (stretchParams xs).2
        ∧ stretchVal (stretchParams xs).1 (stretchParams xs).2 (stretchParams xs).2 < 1) := by
  have hle : (stretchParams xs).1 ≤ (stretchParams xs).2 := by
    rw [stretchParams_of_pos hpos]
    exact percentile_mono hpos (by norm_num) (by norm_num) (by norm_num)
  refine ⟨?_, stretchVal_at_lo hle, fun hlt => stretchVal_at_hi hlt⟩
  intro y hy
  rcases List.mem_map.mp hy with ⟨x, hx, rfl⟩
  exact ⟨stretchVal_nonneg _ _ _, stretchVal_le_one _ _ _⟩

/-- C3 amended witness: the array `[1, 2]` has positive pixels. -/
theorem c3_stretch_amended_witness :
    positives [(1 : ℚ), 2] ≠ []
    ∧ ((∀ y ∈ stretchImage [(1 : ℚ), 2], 0 ≤ y ∧ y ≤ 1)
      ∧ stretchVal (stretchParams [(1 : ℚ), 2]).1 (stretchParams [(1 : ℚ), 2]).2
          (stretchParams [(1 : ℚ), 2]).1 = 0
      ∧ ((stretchParams [(1 : ℚ), 2]).1 < (stretchParams [(1 : ℚ), 2]).2 →
          1 - epsQ / ((stretchParams [(1 : ℚ), 2]).2 - (stretchParams [(1 : ℚ), 2]).1)
              ≤ stretchVal (stretchParams [(1 : ℚ), 2]).1 (stretchParams [(1 : ℚ), 2]).2
                  (stretchParams [(1 : ℚ), 2]).2
          ∧ stretchVal (stretchParams [(1 : ℚ), 2]).1 (stretchParams [(1 : ℚ), 2]).2
              (stretchParams [(1 : ℚ), 2]).2 < 1)) :=
  ⟨by decide, c3_stretch_amended [(1 : ℚ), 2] (by decide)⟩

/-- C8: on an all-zero array the stretcher does not fail: it falls back to
the degenerate range (0, 1) and returns an array (everywhere 0) that lies
entirely within [0,1]. -/
theorem c8_all_zero_stretch (xs : List ℚ) (hz : ∀ x ∈ xs, x = 0) :
    stretchParams xs = (0, 1)
    ∧ (∀ y ∈ stretchImage xs, 0 ≤ y ∧ y ≤ 1)
    ∧ stretchImage xs = xs.map (fun _ => 0) := by
  have hpos : positives xs = [] := by
    apply List.filter_eq_nil_iff.mpr
    intro x hx
    rw [hz x hx]
    norm_num
  have hparams : stretchParams xs = (0, 1) := by
    simp [stretchParams, hpos]
  refine ⟨hparams, ?_, ?_⟩
  · intro y hy
    rcases List.mem_map.mp hy with ⟨x, hx, rfl⟩
    exact ⟨stretchVal_nonneg _ _ _, stretchVal_le_one _ _ _⟩
  · rw [stretchImage, hparams]
    apply List.map_congr_left
    intro x hx
    rw [hz x hx]
    norm_num [stretchVal, clipQ, epsQ]

lemma read_multiband_fallback (r : Raster) (st : String)
    (hlt : r.bands.length < maxNat (get_rgb_bands st)) :
    read_multiband_image (some r) st
      = match readBandsIdx r [1, 2, 3] with
        | none => (none, [warnMsg, errMsg])
        | some bs => (some (stretch3 bs), [warnMsg]) := by
  simp only [read_multiband_image]
  rw [if_pos hlt]

/-- C7 counterexample: a Sentinel-2 raster with 2 bands has fewer bands
than the maximum requested index 4, but the fallback read of bands [1,2,3]
itself fails, so the reader returns an absent result instead of a
height by width by 3 array. -/
theorem c7_counterexample :
    c7raster.bands.length < maxNat (get_rgb_bands "Sentinel-2")
    ∧ (read_multiband_image (some c7raster) "Sentinel-2").1 = none := by
  constructor <;> decide

/-- C7 amended: when the band count is below the maximum requested RGB
index but at least 3, the reader logs the warning and falls back to bands
[1, 2, 3], still producing three stretched bands of height * width pixels
each; with fewer than 3 bands the fallback read itself fails and the
reader returns an absent result. -/
theorem c7_fallback_amended (r : Raster) (satellite_type : String)
    (hband3 : 3 ≤ r.bands.length)
    (hlt : r.bands.length < maxNat (get_rgb_bands satellite_type))
    (hsize : ∀ b ∈ r.bands, b.length = r.height * r.width) :
    warnMsg ∈ (read_multiband_image (some r) satellite_type).2
    ∧ ∃ bs, (read_multiband_image (some r) satellite_type).1 = some bs
        ∧ bs.length = 3
        ∧ ∀ b ∈ bs, b.length = r.height * r.width := by
  have hread : readBandsIdx r [1, 2, 3]
      = some [r.bands.getD 0 [], r.bands.getD 1 [], r.bands.getD 2 []] := by
    unfold readBandsIdx
    rw [if_pos]
    · rfl
    · simp only [List.all_cons, List.all_nil, Bool.and_true, Bool.and_eq_true,
        decide_eq_true_eq]
      omega
  rw [read_multiband_fallback r satellite_type hlt, hread]
  constructor
  · simp
  · refine ⟨stretch3 [r.bands.getD 0 [], r.bands.getD 1 [], r.bands.getD 2 []], rfl, ?_, ?_⟩
    · rfl
    · intro b hb
      unfold stretch3 at hb
      rcases List.mem_map.mp hb with ⟨b0, hb0, rfl⟩
      rw [List.length_map]
      have hmem : ∀ i : Nat, i < r.bands.length → r.bands.getD i [] ∈ r.bands := by
        intro i hi
        rw [List.getD_eq_getElem _ _ hi]
        exact List.getElem_mem hi
      simp only [List.mem_cons, List.not_mem_nil, or_false] at hb0
      rcases hb0 with h0 | h1 | h2
      · exact h0 ▸ hsize _ (hmem 0 (by omega))
      · exact h1 ▸ hsize _ (hmem 1 (by omega))
      · exact h2 ▸ hsize _ (hmem 2 (by omega))

/-- C7 amended witness: a Sentinel-2 raster with exactly 3 bands. -/
theorem c7_fallback_amended_witness :
    (3 ≤ c7raster3.bands.length
      ∧ c7raster3.bands.length < maxNat (get_rgb_bands "Sentinel-2"))
    ∧ (warnMsg ∈ (read_multiband_image (some c7raster3) "Sentinel-2").2
      ∧ ∃ bs, (read_multiband_image (some c7raster3) "Sentinel-2").1 = some bs
          ∧ bs.length = 3
          ∧ ∀ b ∈ bs, b.length = c7raster3.height * c7raster3.width) :=
  ⟨⟨by decide, by decide⟩,
    c7_fallback_amended c7raster3 "Sentinel-2" (by decide) (by decide) (by decide)⟩

/-- C9 counterexample: the scene name `_truth.tifI8x.tif` ends in `.tif`,
is classified Landsat-8, but its truth name (every `.tif` replaced by
`_truth.tif`) is classified Other: scanner and sample renderer disagree. -/
theorem c9_counterexample :
    strEndsWith tifSuffix (("_truth.tifI8x.tif").toList) = true
    ∧ detect_satellite (("_truth.tifI8x.tif").toList) = "Landsat-8"
    ∧ detect_satellite
        (replaceL tifSuffix truthSuffix (("_truth.tifI8x.tif").toList)) = "Other" := by
  refine ⟨by decide, by decide, by decide⟩

lemma replAux_skip (pat rep : List Char) (l1 : List Char) :
    ∀ l2, replAux pat rep l1.length (l1 ++ l2) = replAux pat rep 0 l2 := by
  induction l1 with
  | nil => intro l2; rfl
  | cons c t ih =>
    intro l2
    rw [List.length_cons, List.cons_append]
    exact (show replAux pat rep (t.length + 1) (c :: (t ++ l2))
        = replAux pat rep t.length (t ++ l2) from rfl).trans (ih l2)

lemma replAux_nomatch (pat rep : List Char) (c : Char) (cs : List Char)
    (h : List.isPrefixOf pat (c :: cs) = false) :
    replAux pat rep 0 (c :: cs) = c :: replAux pat rep 0 cs := by
  show (if List.isPrefixOf pat (c :: cs) then
      rep ++ replAux pat rep (pat.length - 1) cs
    else c :: replAux pat rep 0 cs) = c :: replAux pat rep 0 cs
  rw [h]
  simp

lemma replAux_match (pat rep rest : List Char) (hne : pat ≠ []) :
    replAux pat rep 0 (pat ++ rest) = rep ++ replAux pat rep 0 rest := by
  cases pat with
  | nil => exact absurd rfl hne
  | cons p ps =>
    have hpre : List.isPrefixOf (p :: ps) (p :: (ps ++ rest)) = true := by
      rw [List.isPrefixOf_iff_prefix, ← List.cons_append]
      exact List.prefix_append _ _
    rw [List.cons_append]
    show (if List.isPrefixOf (p :: ps) (p :: (ps ++ rest)) then
        rep ++ replAux (p :: ps) rep ((p :: ps).length - 1) (ps ++ rest)
      else p :: replAux (p :: ps) rep 0 (ps ++ rest))
      = rep ++ replAux (p :: ps) rep 0 rest
    rw [hpre]
    have hlen : (p :: ps).length - 1 = ps.length := by simp
    rw [if_pos rfl, hlen, replAux_skip]

lemma replAux_through (pat rep : List Char) (base tail : List Char)
    (hc : ∀ l1 l2, base = l1 ++ l2 → l2 ≠ [] →
      List.isPrefixOf pat (l2 ++ tail) = false) :
    replAux pat rep 0 (base ++ tail) = base ++ replAux pat rep 0 tail := by
  induction base with
  | nil => rfl
  | cons c t ih =>
    have hno2 : List.isPrefixOf pat (c :: (t ++ tail)) = false := by
      have h := hc [] (c :: t) rfl (by simp)
      rwa [List.cons_append] at h
    have hrec : ∀ l1 l2, t = l1 ++ l2 → l2 ≠ [] →
        List.isPrefixOf pat (l2 ++ tail) = false := by
      intro l1 l2 hs hne2
      exact hc (c :: l1) l2 (by rw [hs, List.cons_append]) hne2
    rw [List.cons_append, replAux_nomatch pat rep c (t ++ tail) hno2, ih hrec]
    rfl

lemma replAux_id (pat rep : List Char) (l : List Char)
    (hc : ∀ l1 l2, l = l1 ++ l2 → l2 ≠ [] → List.isPrefixOf pat l2 = false) :
    replAux pat rep 0 l = l := by
  induction l with
  | nil => rfl
  | cons c t ih =>
    have hno2 : List.isPrefixOf pat (c :: t) = false := hc [] (c :: t) rfl (by simp)
    have hrec : ∀ l1 l2, t = l1 ++ l2 → l2 ≠ [] → List.isPrefixOf pat l2 = false :=
      fun l1 l2 hs hne2 => hc (c :: l1) l2 (by rw [hs, List.cons_append]) hne2
    rw [replAux_nomatch pat rep c t hno2, ih hrec]

lemma isPrefixOf_extend {pat l y : List Char}
    (h : List.isPrefixOf pat l = true) :
    List.isPrefixOf pat (l ++ y) = true := by
  rw [List.isPrefixOf_iff_prefix] at h ⊢
  exact h.trans (List.prefix_append _ _)

lemma isPrefixOf_length {p l : List Char} (h : List.isPrefixOf p l = true) :
    p.length ≤ l.length := by
  rw [List.isPrefixOf_iff_prefix] at h
  exact h.length_le

lemma isPrefixOf_append_of_le :
    ∀ (pat l2 t : List Char), pat.length ≤ l2.length →
      List.isPrefixOf pat (l2 ++ t) = List.isPrefixOf pat l2
  | [], l2, t, _ => by simp
  | p :: ps, [], t, h => by simp at h
  | p :: ps, c :: cs, t, h => by
    rw [List.cons_append]
    show (p == c && List.isPrefixOf ps (cs ++ t)) = (p == c && List.isPrefixOf ps cs)
    rw [isPrefixOf_append_of_le ps cs t (by simpa using h)]

lemma prefix_self_append_shift {pat l2 rest : List Char}
    (heq : l2 ++ pat = pat ++ rest) (hlen : l2.length ≤ pat.length) :
    List.isPrefixOf (pat.drop l2.length) pat = true := by
  have h1 : (l2 ++ pat).drop l2.length = pat := List.drop_left l2 pat
  rw [heq, List.drop_append_of_le_length hlen] at h1
  rw [List.isPrefixOf_iff_prefix]
  exact ⟨rest, h1⟩

lemma occursIn_split {pat : List Char} (hne : pat ≠ []) :
    ∀ (l1 l2 : List Char), occursIn pat (l1 ++ l2) = false →
      List.isPrefixOf pat l2 = false := by
  intro l1
  induction l1 with
  | nil =>
    intro l2 hocc
    cases l2 with
    | nil =>
      cases pat with
      | nil => exact absurd rfl hne
      | cons p ps => rfl
    | cons c cs =>
      rw [List.nil_append] at hocc
      rw [show occursIn pat (c :: cs)
          = (List.isPrefixOf pat (c :: cs) || occursIn pat cs) from rfl] at hocc
      exact (Bool.or_eq_false_iff.mp hocc).1
  | cons c t ih =>
    intro l2 hocc
    rw [List.cons_append] at hocc
    rw [show occursIn pat (c :: (t ++ l2))
        = (List.isPrefixOf pat (c :: (t ++ l2)) || occursIn pat (t ++ l2)) from rfl] at hocc
    exact ih l2 (Bool.or_eq_false_iff.mp hocc).2

lemma occursIn_append_left {pat : List Char} (hne : pat ≠ []) :
    ∀ (x y : List Char), occursIn pat (x ++ y) = false → occursIn pat x = false := by
  intro x
  induction x with
  | nil =>
    intro y h
    cases pat with
    | nil => exact absurd rfl hne
    | cons p ps => rfl
  | cons c t ih =>
    intro y h
    rw [List.cons_append] at h
    rw [show occursIn pat (c :: (t ++ y))
        = (List.isPrefixOf pat (c :: (t ++ y)) || occursIn pat (t ++ y)) from rfl] at h
    rcases Bool.or_eq_false_iff.mp h with ⟨h1, h2⟩
    rw [show occursIn pat (c :: t)
        = (List.isPrefixOf pat (c :: t) || occursIn pat t) from rfl]
    rw [ih y h2, Bool.or_false]
    cases hb : List.isPrefixOf pat (c :: t)
    · rfl
    · have hext := isPrefixOf_extend (l := c :: t) (y := y) hb
      rw [List.cons_append] at hext
      rw [hext] at h1
      exact h1

lemma replace_tif_to_truth (base : List Char)
    (hno : occursIn tifSuffix base = false) :
    replaceL tifSuffix truthSuffix (base ++ tifSuffix) = base ++ truthSuffix := by
  unfold replaceL
  have hcond : ∀ l1 l2, base = l1 ++ l2 → l2 ≠ [] →
      List.isPrefixOf tifSuffix (l2 ++ tifSuffix) = false := by
    intro l1 l2 hsplit hne
    rcases Nat.lt_or_ge l2.length 4 with hlen | hlen
    · by_contra hcontra
      have htrue : List.isPrefixOf tifSuffix (l2 ++ tifSuffix) = true := by
        cases hb : List.isPrefixOf tifSuffix (l2 ++ tifSuffix)
        · exact absurd hb hcontra
        · rfl
      rw [List.isPrefixOf_iff_prefix] at htrue
      rcases htrue with ⟨rest, hrest⟩
      have hshift := prefix_self_append_shift hrest.symm
        (by simp [tifSuffix]; omega)
      have hk1 : 1 ≤ l2.length := by
        cases l2 with
        | nil => exact absurd rfl hne
        | cons a b => simp
      have hk : l2.length = 1 ∨ l2.length = 2 ∨ l2.length = 3 := by omega
      rcases hk with h | h | h <;> rw [h] at hshift <;>
        exact absurd hshift (by decide)
    · rw [isPrefixOf_append_of_le tifSuffix l2 tifSuffix
        (by simp [tifSuffix]; omega)]
      exact occursIn_split (by decide) l1 l2 (by rw [← hsplit]; exact hno)
  rw [replAux_through tifSuffix truthSuffix base tifSuffix hcond]
  rw [(by decide : replAux tifSuffix truthSuffix 0 tifSuffix = truthSuffix)]

lemma strip_truth_append (base : List Char)
    (hno : occursIn tifSuffix base = false) :
    replaceL truthSuffix [] (base ++ truthSuffix) = base := by
  unfold replaceL
  have hcond : ∀ l1 l2, base = l1 ++ l2 → l2 ≠ [] →
      List.isPrefixOf truthSuffix (l2 ++ truthSuffix) = false := by
    intro l1 l2 hsplit hne
    rcases Nat.lt_or_ge l2.length 10 with hlen | hlen
    · by_contra hcontra
      have htrue : List.isPrefixOf truthSuffix (l2 ++ truthSuffix) = true := by
        cases hb : List.isPrefixOf truthSuffix (l2 ++ truthSuffix)
        · exact absurd hb hcontra
        · rfl
      rw [List.isPrefixOf_iff_prefix] at htrue
      rcases htrue with ⟨rest, hrest⟩
      have hshift := prefix_self_append_shift hrest.symm
        (by simp [truthSuffix]; omega)
      have hk1 : 1 ≤ l2.length := by
        cases l2 with
        | nil => exact absurd rfl hne
        | cons a b => simp
      have hk : l2.length = 1 ∨ l2.length = 2 ∨ l2.length = 3 ∨ l2.length = 4
          ∨ l2.length = 5 ∨ l2.length = 6 ∨ l2.length = 7 ∨ l2.length = 8
          ∨ l2.length = 9 := by omega
      rcases hk with h | h | h | h | h | h | h | h | h <;> rw [h] at hshift <;>
        exact absurd hshift (by decide)
    · rw [isPrefixOf_append_of_le truthSuffix l2 truthSuffix
        (by simp [truthSuffix]; omega)]
      by_contra hcontra
      have htrue : List.isPrefixOf truthSuffix l2 = true := by
        cases hb : List.isPrefixOf truthSuffix l2
        · exact absurd hb hcontra
        · rfl
      rw [List.isPrefixOf_iff_prefix] at htrue
      rcases htrue with ⟨rest2, hrest2⟩
      have heqbase : (l1 ++ truthPre) ++ (tifSuffix ++ rest2) = base := by
        rw [hsplit, ← hrest2]
        rw [show truthSuffix = truthPre ++ tifSuffix from rfl]
        simp [List.append_assoc]
      have hocc : List.isPrefixOf tifSuffix (tifSuffix ++ rest2) = false := by
        apply occursIn_split (show tifSuffix ≠ [] by decide)
          (l1 ++ truthPre) (tifSuffix ++ rest2)
        rw [heqbase]
        exact hno
      have htif : List.isPrefixOf tifSuffix (tifSuffix ++ rest2) = true := by
        rw [List.isPrefixOf_iff_prefix]
        exact List.prefix_append _ _
      rw [htif] at hocc
      exact Bool.noConfusion hocc
  rw [replAux_through truthSuffix [] base truthSuffix hcond]
  rw [(by decide : replAux truthSuffix [] 0 truthSuffix = [])]
  rw [List.append_nil]

lemma strip_noop (base : List Char)
    (hno : occursIn tifSuffix base = false)
    (hE : ¬ ∃ b, base = b ++ truthPre) :
    replaceL truthSuffix [] (base ++ tifSuffix) = base ++ tifSuffix := by
  unfold replaceL
  apply replAux_id
  intro l1 l2 hsplit hne
  by_contra hcontra
  have htrue : List.isPrefixOf truthSuffix l2 = true := by
    cases hb : List.isPrefixOf truthSuffix l2
    · exact absurd hb hcontra
    · rfl
  rw [List.isPrefixOf_iff_prefix] at htrue
  rcases htrue with ⟨rest, hrest⟩
  rcases List.append_eq_append_iff.mp hsplit with ⟨m, hm1, hm2⟩ | ⟨m, hm1, hm2⟩
  · -- l2 falls inside the final ".tif": too short for "_truth.tif"
    have e1 := congrArg List.length hrest
    have e2 := congrArg List.length hm2
    simp [truthSuffix, tifSuffix] at e1 e2
    omega
  · -- l2 = m ++ ".tif" with base = l1 ++ m
    have heq : truthSuffix ++ rest = m ++ tifSuffix := hrest.trans hm2
    have e1 := congrArg List.length heq
    simp [truthSuffix, tifSuffix] at e1
    rcases Nat.lt_or_ge m.length 10 with hm10 | hm10
    · have hmtake : m = truthSuffix.take m.length := by
        have h1 : (m ++ tifSuffix).take m.length = m := List.take_left m tifSuffix
        rw [← heq, List.take_append_of_le_length (by simp [truthSuffix]; omega)] at h1
        exact h1.symm
      have hdrop : truthSuffix.drop m.length ++ rest = tifSuffix := by
        have h1 : (m ++ tifSuffix).drop m.length = tifSuffix := List.drop_left m tifSuffix
        rw [← heq, List.drop_append_of_le_length (by simp [truthSuffix]; omega)] at h1
        exact h1
      have hk : m.length = 6 ∨ m.length = 7 ∨ m.length = 8 ∨ m.length = 9 := by
        omega
      rcases hk with h | h | h | h
      · refine hE ⟨l1, ?_⟩
        rw [hm1, hmtake, h]
        rfl
      · rw [h] at hdrop
        simp [truthSuffix, tifSuffix] at hdrop
      · rw [h] at hdrop
        simp [truthSuffix, tifSuffix] at hdrop
      · rw [h] at hdrop
        simp [truthSuffix, tifSuffix] at hdrop
    · -- m begins with the whole "_truth.tif": base would contain ".tif"
      have hmtake : truthSuffix = m.take 10 := by
        have h1 : (truthSuffix ++ rest).take 10 = truthSuffix :=
          List.take_left' (by simp [truthSuffix])
        rw [heq, List.take_append_of_le_length (by omega)] at h1
        exact h1.symm
      have hm' : m = truthSuffix ++ m.drop 10 := by
        conv_lhs => rw [← List.take_append_drop 10 m]
        rw [← hmtake]
      have heqbase : (l1 ++ truthPre) ++ (tifSuffix ++ m.drop 10) = base := by
        rw [hm1]
        conv_rhs => rw [hm']
        rw [show truthSuffix = truthPre ++ tifSuffix from rfl]
        simp [List.append_assoc]
      have hocc : List.isPrefixOf tifSuffix (tifSuffix ++ m.drop 10) = false := by
        apply occursIn_split (show tifSuffix ≠ [] by decide)
          (l1 ++ truthPre) (tifSuffix ++ m.drop 10)
        rw [heqbase]
        exact hno
      have htif : List.isPrefixOf tifSuffix (tifSuffix ++ m.drop 10) = true := by
        rw [List.isPrefixOf_iff_prefix]
        exact List.prefix_append _ _
      rw [htif] at hocc
      exact Bool.noConfusion hocc

lemma nil_isPrefixOf_true (l : List Char) : List.isPrefixOf [] l = true := by
  cases l <;> rfl

lemma isPrefixOf2_append (p1 p2 : Char) (t : List Char) (c : Char) (rest : List Char)
    (h1 : (p1 == c) = false) (h2 : (p2 == c) = false) :
    List.isPrefixOf [p1, p2] (t ++ c :: rest) = List.isPrefixOf [p1, p2] t := by
  match t with
  | [] =>
    show (p1 == c && List.isPrefixOf [p2] rest) = List.isPrefixOf [p1, p2] []
    rw [h1, Bool.false_and]
    rfl
  | [d] =>
    show (p1 == d && (p2 == c && List.isPrefixOf [] rest))
        = (p1 == d && List.isPrefixOf [p2] [])
    rw [h2, Bool.false_and]
    rfl
  | d1 :: d2 :: t' =>
    show (p1 == d1 && (p2 == d2 && List.isPrefixOf [] (t' ++ c :: rest)))
        = (p1 == d1 && (p2 == d2 && List.isPrefixOf [] t'))
    rw [nil_isPrefixOf_true, nil_isPrefixOf_true]

lemma classifyPrefix_append (t : List Char) (c : Char) (rest : List Char)
    (hI : (('I' : Char) == c) = false) (hS : (('S' : Char) == c) = false)
    (h5 : (('5' : Char) == c) = false) (h7 : (('7' : Char) == c) = false)
    (h8 : (('8' : Char) == c) = false) (h9 : (('9' : Char) == c) = false)
    (h2 : (('2' : Char) == c) = false) :
    classifyPrefix (t ++ c :: rest) = classifyPrefix t := by
  unfold classifyPrefix
  rw [isPrefixOf2_append 'I' '5' t c rest hI h5,
      isPrefixOf2_append 'I' '7' t c rest hI h7,
      isPrefixOf2_append 'I' '8' t c rest hI h8,
      isPrefixOf2_append 'I' '9' t c rest hI h9,
      isPrefixOf2_append 'S' '2' t c rest hS h2]

/-- C9 amended: for every scene name `base ++ ".tif"` in which `.tif`
occurs only as the final extension, the classifier returns the same label
for the scene name and for the truth name built by
`scene_name.replace(".tif", "_truth.tif")`; for pathological names in
which `.tif` also occurs earlier the two classifications can disagree. -/
theorem c9_detect_agreement_amended (base : List Char)
    (hno : occursIn tifSuffix base = false) :
    detect_satellite (base ++ tifSuffix)
      = detect_satellite (replaceL tifSuffix truthSuffix (base ++ tifSuffix)) := by
  rw [replace_tif_to_truth base hno]
  show classifyPrefix (replaceL truthSuffix [] (base ++ tifSuffix))
      = classifyPrefix (replaceL truthSuffix [] (base ++ truthSuffix))
  rw [strip_truth_append base hno]
  by_cases hE : ∃ b, base = b ++ truthPre
  · rcases hE with ⟨b, rfl⟩
    have hnob : occursIn tifSuffix b = false :=
      occursIn_append_left (by decide) b truthPre hno
    have h1 : replaceL truthSuffix [] ((b ++ truthPre) ++ tifSuffix) = b := by
      rw [List.append_assoc]
      rw [show truthPre ++ tifSuffix = truthSuffix from rfl]
      exact strip_truth_append b hnob
    rw [h1]
    rw [show b ++ truthPre = b ++ '_' :: ['t', 'r', 'u', 't', 'h'] from rfl]
    rw [classifyPrefix_append b '_' ['t', 'r', 'u', 't', 'h'] (by decide) (by decide)
      (by decide) (by decide) (by decide) (by decide) (by decide)]
  · rw [strip_noop base hno hE]
    rw [show base ++ tifSuffix = base ++ '.' :: ['t', 'i', 'f'] from rfl]
    rw [classifyPrefix_append base '.' ['t', 'i', 'f'] (by decide) (by decide)
      (by decide) (by decide) (by decide) (by decide) (by decide)]

/-- C9 amended witness: the real scene base name `I8_scene_12`. -/
theorem c9_detect_agreement_amended_witness :
    occursIn tifSuffix (("I8_scene_12").toList) = false
    ∧ detect_satellite (("I8_scene_12").toList ++ tifSuffix)
      = detect_satellite
          (replaceL tifSuffix truthSuffix (("I8_scene_12").toList ++ tifSuffix)) :=
  ⟨by decide, c9_detect_agreement_amended (("I8_scene_12").toList) (by decide)⟩

/-- C8 witness: the all-zero array `[0, 0]`. -/
theorem c8_all_zero_stretch_witness :
    (∀ x ∈ [(0 : ℚ), 0], x = 0)
    ∧ (stretchParams [(0 : ℚ), 0] = (0, 1)
      ∧ (∀ y ∈ stretchImage [(0 : ℚ), 0], 0 ≤ y ∧ y ≤ 1)
      ∧ stretchImage [(0 : ℚ), 0] = [(0 : ℚ), 0].map (fun _ => 0)) :=
  ⟨by decide, c8_all_zero_stretch [(0 : ℚ), 0] (by decide)⟩
